import Mathlib

/-!
Verification of `train.py` from the pytorch-transformer knowledge-distillation
repository: a shallow embedding of its loss computation, greedy decoding,
training loop state, checkpointing, quantization, tokenizer construction and
validation batching, together with theorems settling the specification claims.
-/

namespace DistillTrain

/-! ## Distillation loss (`knowledge_distillation_loss`, train.py lines 26-31)

Logits tensors of shape (batch, classes) are embedded as `Fin b → Fin n → ℝ`;
labels as `Fin b → Fin n`.  The PyTorch reductions are embedded exactly:
`torch.softmax` row-wise, `torch.log_softmax` as `x - logsumexp x` (the form
PyTorch computes), `nn.KLDivLoss(reduction='batchmean')` as the elementwise
`target * (log target - input)` summed over all elements and divided by the
batch size, and `nn.CrossEntropyLoss()` (default mean reduction, no
`ignore_index`) as the mean over rows of `logsumexp (x i) - x i (y i)`. -/

/-- Row softmax: `torch.softmax(x, dim=-1)` on one row. -/
noncomputable def softmax {n : ℕ} (x : Fin n → ℝ) (j : Fin n) : ℝ :=
  Real.exp (x j) / ∑ k, Real.exp (x k)

/-- Row log-softmax as PyTorch computes it: `x j - logsumexp x`. -/
noncomputable def logSoftmax {n : ℕ} (x : Fin n → ℝ) (j : Fin n) : ℝ :=
  x j - Real.log (∑ k, Real.exp (x k))

/-- `nn.KLDivLoss(reduction='batchmean')(input, target)`: the sum over all
elements of `target * (log target - input)`, divided by the batch size. -/
noncomputable def klDivBatchmean {b n : ℕ} (input target : Fin b → Fin n → ℝ) : ℝ :=
  (∑ i, ∑ j, target i j * (Real.log (target i j) - input i j)) / b

/-- `nn.CrossEntropyLoss()(x, y)` with default arguments: mean over the batch
of `-(log_softmax (x i)) (y i) = logsumexp (x i) - x i (y i)`. -/
noncomputable def crossEntropyLoss {b n : ℕ} (x : Fin b → Fin n → ℝ) (y : Fin b → Fin n) : ℝ :=
  (∑ i, (Real.log (∑ k, Real.exp (x i k)) - x i (y i))) / b

/-- `knowledge_distillation_loss(student_logits, teacher_logits, labels,
temperature, alpha)` (train.py lines 26-31): the KL divergence between the
log-softmax of `student/T` and the softmax of `teacher/T` (batchmean), scaled
by `T^2`, combined as `alpha * ce + (1 - alpha) * distillation`. -/
noncomputable def knowledge_distillation_loss {b n : ℕ}
    (student_logits teacher_logits : Fin b → Fin n → ℝ) (labels : Fin b → Fin n)
    (temperature alpha : ℝ) : ℝ :=
  let distillation_loss :=
    klDivBatchmean (fun i j => logSoftmax (fun k => student_logits i k / temperature) j)
        (fun i j => softmax (fun k => teacher_logits i k / temperature) j)
      * temperature ^ 2
  let ce_loss := crossEntropyLoss student_logits labels
  alpha * ce_loss + (1 - alpha) * distillation_loss

/-! Spec-side formulation of claim C1, written from the spec's words: the
cross-entropy is the mean of `-log (softmax row)` at the label, the KL term
compares `log (softmax (student/T))` with `softmax (teacher/T)` and is scaled
by `T^2`, and the result is `alpha * CE + (1 - alpha) * KL`. -/

/-- Spec-side cross-entropy: mean over the batch of `-log (softmax (x i) (y i))`. -/
noncomputable def crossEntropySpec {b n : ℕ} (x : Fin b → Fin n → ℝ) (y : Fin b → Fin n) : ℝ :=
  (∑ i, -(Real.log (softmax (x i) (y i)))) / b

/-- Spec-side distillation loss: `alpha * CE + (1 - alpha) * T^2 * KL`, with the
KL input being the literal logarithm of the softmax. -/
noncomputable def kdLossSpec {b n : ℕ}
    (student teacher : Fin b → Fin n → ℝ) (labels : Fin b → Fin n) (T alpha : ℝ) : ℝ :=
  alpha * crossEntropySpec student labels +
    (1 - alpha) *
      (klDivBatchmean (fun i j => Real.log (softmax (fun k => student i k / T) j))
          (fun i j => softmax (fun k => teacher i k / T) j)
        * T ^ 2)

/-- The sum of exponentials of a row is positive (rows are nonempty since an
index exists). -/
lemma sum_exp_pos {n : ℕ} (x : Fin n → ℝ) (j : Fin n) :
    0 < ∑ k, Real.exp (x k) :=
  Finset.sum_pos (fun k _ => Real.exp_pos (x k)) ⟨j, Finset.mem_univ j⟩

/-- PyTorch's `x - logsumexp` form of log-softmax agrees with the literal
logarithm of the softmax. -/
lemma logSoftmax_eq_log_softmax {n : ℕ} (x : Fin n → ℝ) (j : Fin n) :
    logSoftmax x j = Real.log (softmax x j) := by
  unfold logSoftmax softmax
  rw [Real.log_div (Real.exp_ne_zero (x j)) (ne_of_gt (sum_exp_pos x j)),
    Real.log_exp]

/-- The source cross-entropy agrees with the spec-side `mean of -log softmax`. -/
lemma crossEntropyLoss_eq_spec {b n : ℕ} (x : Fin b → Fin n → ℝ) (y : Fin b → Fin n) :
    crossEntropyLoss x y = crossEntropySpec x y := by
  unfold crossEntropyLoss crossEntropySpec
  congr 1
  refine Finset.sum_congr rfl fun i _ => ?_
  rw [← logSoftmax_eq_log_softmax (x i) (y i)]
  unfold logSoftmax
  ring

/-! ## Greedy decoding (`greedy_decode`, train.py lines 33-54)

The model is abstracted as a function from the current decoder-input token
sequence to the projected logit row for the last position (the only way
`greedy_decode` uses `model.encode`/`decode`/`project`).  Logits are rationals
so that decoding is executable.  `torch.max(prob, dim=1)` returns the index of
the first maximal entry, embedded as `argmaxIdx`. -/

/-- Helper for `argmaxIdx`: scan the tail keeping the first maximal index. -/
def argmaxAux : List ℚ → ℕ → ℕ → ℚ → ℕ
  | [], _, bi, _ => bi
  | x :: xs, i, bi, bv => if bv < x then argmaxAux xs (i + 1) i x else argmaxAux xs (i + 1) bi bv

/-- Index of the first maximal entry of a list, as `torch.max(·, dim=1)`
returns it (0 on the empty list). -/
def argmaxIdx : List ℚ → ℕ
  | [] => 0
  | x :: xs => argmaxAux xs 1 0 x

/-- The loop of `greedy_decode` (train.py lines 39-52): stop when the decoder
input has length `maxLen`; otherwise append the argmax of the model's projected
distribution over the last position, and stop if that token is `eos`.  `fuel`
bounds the recursion; `greedy_decode` supplies `maxLen`, which always
suffices. -/
def greedyLoop (model : List ℕ → List ℚ) (eos maxLen : ℕ) : ℕ → List ℕ → List ℕ
  | 0, acc => acc
  | fuel + 1, acc =>
    if acc.length = maxLen then acc
    else
      let next := argmaxIdx (model acc)
      let acc' := acc ++ [next]
      if next = eos then acc' else greedyLoop model eos maxLen fuel acc'

/-- `greedy_decode(model, source, ..., max_len, ...)`: start from `[sos]` and
run the decoding loop. -/
def greedy_decode (model : List ℕ → List ℚ) (sos eos maxLen : ℕ) : List ℕ :=
  greedyLoop model eos maxLen maxLen [sos]

/-- Element at position `l.length` in `l ++ [a]` is `a`. -/
lemma get_concat_self {α : Type} (l : List α) (a : α) (h : l.length < (l ++ [a]).length) :
    (l ++ [a]).get ⟨l.length, h⟩ = a := by simp

/-- Element at position `l.length` in `(l ++ [a]) ++ t` is `a`. -/
lemma get_append_concat {α : Type} (l : List α) (a : α) (t : List α)
    (h : l.length < ((l ++ [a]) ++ t).length) :
    ((l ++ [a]) ++ t).get ⟨l.length, h⟩ = a := by
  simp only [List.get_eq_getElem, List.append_assoc, List.singleton_append]
  rw [List.getElem_append_right (le_refl l.length)]
  simp

/-- Taking `l.length` elements of `(l ++ [a]) ++ t` recovers `l`. -/
lemma take_append_concat {α : Type} (l : List α) (a : α) (t : List α) :
    ((l ++ [a]) ++ t).take l.length = l := by
  rw [List.append_assoc]; simp

/-- Invariant relating the accumulator `acc` entering the decoding loop to the
loop's result `r`: `r` extends `acc`, stays within `maxLen`, every appended
token is the argmax of the model on the preceding prefix of `r`, and every
appended token other than the last differs from `eos`. -/
def GreedyInv (model : List ℕ → List ℚ) (eos maxLen : ℕ) (acc r : List ℕ) : Prop :=
  (∃ t, r = acc ++ t) ∧ r.length ≤ maxLen ∧
  (∀ k (hk : k < r.length), acc.length ≤ k →
    r.get ⟨k, hk⟩ = argmaxIdx (model (r.take k))) ∧
  (∀ k (hk : k < r.length), acc.length ≤ k → k + 1 < r.length →
    r.get ⟨k, hk⟩ ≠ eos)

/-- The invariant holds trivially when the loop returns its accumulator. -/
lemma greedyInv_stop (model : List ℕ → List ℚ) (eos maxLen : ℕ) (acc : List ℕ)
    (h : acc.length ≤ maxLen) : GreedyInv model eos maxLen acc acc := by
  refine ⟨⟨[], by simp⟩, h, ?_, ?_⟩ <;> intro k hk hge <;> omega

/-- The invariant holds when the loop appends one argmax token and stops. -/
lemma greedyInv_concat (model : List ℕ → List ℚ) (eos maxLen : ℕ) (acc : List ℕ)
    (h : acc.length < maxLen) :
    GreedyInv model eos maxLen acc (acc ++ [argmaxIdx (model acc)]) := by
  refine ⟨⟨[argmaxIdx (model acc)], rfl⟩, by simp; omega, ?_, ?_⟩
  · intro k hk hge
    have hkub : k < acc.length + 1 := by simpa using hk
    have hkeq : k = acc.length := by omega
    subst hkeq
    rw [show (acc ++ [argmaxIdx (model acc)]).take acc.length = acc by simp]
    exact get_concat_self acc (argmaxIdx (model acc)) hk
  · intro k hk hge hlast
    have : k + 1 < acc.length + 1 := by simpa using hlast
    omega

/-- The invariant propagates backwards across one non-`eos` argmax append. -/
lemma greedyInv_extend (model : List ℕ → List ℚ) (eos maxLen : ℕ) (acc r : List ℕ)
    (hinv : GreedyInv model eos maxLen (acc ++ [argmaxIdx (model acc)]) r)
    (heos : argmaxIdx (model acc) ≠ eos) :
    GreedyInv model eos maxLen acc r := by
  obtain ⟨⟨t, rfl⟩, hlen, hstep, hlaste⟩ := hinv
  refine ⟨⟨[argmaxIdx (model acc)] ++ t, by rw [List.append_assoc]⟩, hlen, ?_, ?_⟩
  · intro k hk hge
    by_cases hk2 : (acc ++ [argmaxIdx (model acc)]).length ≤ k
    · exact hstep k hk hk2
    · have hkeq : k = acc.length := by simp at hk2; omega
      subst hkeq
      rw [take_append_concat]
      exact get_append_concat acc (argmaxIdx (model acc)) t hk
  · intro k hk hge hlast
    by_cases hk2 : (acc ++ [argmaxIdx (model acc)]).length ≤ k
    · exact hlaste k hk hk2 hlast
    · have hkeq : k = acc.length := by simp at hk2; omega
      subst hkeq
      rw [get_append_concat acc (argmaxIdx (model acc)) t hk]
      exact heos

/-- With enough fuel, the decoding loop establishes `GreedyInv`. -/
lemma greedyLoop_spec (model : List ℕ → List ℚ) (eos maxLen : ℕ) :
    ∀ fuel acc, 1 ≤ acc.length → acc.length ≤ maxLen → maxLen - acc.length ≤ fuel →
      GreedyInv model eos maxLen acc (greedyLoop model eos maxLen fuel acc) := by
  intro fuel
  induction fuel with
  | zero =>
    intro acc h1 h2 hf
    rw [show greedyLoop model eos maxLen 0 acc = acc from rfl]
    exact greedyInv_stop model eos maxLen acc h2
  | succ fuel ih =>
    intro acc h1 h2 hf
    by_cases hstop : acc.length = maxLen
    · rw [show greedyLoop model eos maxLen (fuel + 1) acc = acc by
        simp [greedyLoop, hstop]]
      exact greedyInv_stop model eos maxLen acc h2
    · have hlt : acc.length < maxLen := lt_of_le_of_ne h2 hstop
      by_cases heos : argmaxIdx (model acc) = eos
      · rw [show greedyLoop model eos maxLen (fuel + 1) acc =
            acc ++ [argmaxIdx (model acc)] by simp [greedyLoop, hstop, heos]]
        exact greedyInv_concat model eos maxLen acc hlt
      · rw [show greedyLoop model eos maxLen (fuel + 1) acc =
            greedyLoop model eos maxLen fuel (acc ++ [argmaxIdx (model acc)]) by
          simp [greedyLoop, hstop, heos]]
        exact greedyInv_extend model eos maxLen acc _
          (ih (acc ++ [argmaxIdx (model acc)]) (by simp) (by simp; omega) (by simp; omega))
          heos

/-! ## Models and configuration (train.py lines 162-168, config values)

`model.py` and `config.py` are not part of the provided sources; only the shape
of the built models is needed, so builders are modelled from the spec. -/

/-- A built transformer, described by its architecture parameters. -/
structure TModel where
  dModel : ℕ
  srcSeqLen : ℕ
  tgtSeqLen : ℕ
  srcVocabSize : ℕ
  tgtVocabSize : ℕ
  deriving DecidableEq

/-- The configuration entries of `config` that the claims depend on. -/
structure Config where
  dModel : ℕ
  seqLen : ℕ
  numEpochs : ℕ
  preload : Option String
  deriving DecidableEq

/-- Modelled from the spec: `build_transformer` (defined in `model.py`, which is
absent from the sources) builds a full-size encoder-decoder transformer whose
model width is the `d_model` argument it receives. -/
def build_transformer (vocabSrc vocabTgt srcLen tgtLen dModel : ℕ) : TModel :=
  ⟨dModel, srcLen, tgtLen, vocabSrc, vocabTgt⟩

/-- Modelled from the spec: `build_student_transformer` (defined in `model.py`,
absent from the sources) builds a student encoder-decoder transformer whose
model width is the `d_model` argument it receives, freshly initialized. -/
def build_student_transformer (vocabSrc vocabTgt srcLen tgtLen dModel : ℕ) : TModel :=
  ⟨dModel, srcLen, tgtLen, vocabSrc, vocabTgt⟩

/-- `get_model` (train.py lines 162-164): the teacher is built with the
configured `d_model`. -/
def get_model (config : Config) (vocab_src_len vocab_tgt_len : ℕ) : TModel :=
  build_transformer vocab_src_len vocab_tgt_len config.seqLen config.seqLen config.dModel

/-- `get_model_distillation` (train.py lines 166-168): the student is built
with `d_model=config['d_model']//2` (integer floor division). -/
def get_model_distillation (config : Config) (vocab_src_len vocab_tgt_len : ℕ) : TModel :=
  build_student_transformer vocab_src_len vocab_tgt_len config.seqLen config.seqLen
    (config.dModel / 2)

/-! ## Training-loop state (`train_model`, train.py lines 170-263)

The mutable state of `train_model` is embedded as a record over abstract
parameter and optimizer-state types `P` and `O`.  The gradient of the
distillation loss with respect to the student parameters is an abstract
function of the student parameters, the teacher parameters (whose outputs enter
the loss as plain values, computed under `torch.no_grad()`) and the batch; the
Adam update is an abstract function from optimizer state, parameters and
gradients to new parameters and optimizer state (`optimizer` is constructed
over `student_model.parameters()` only, train.py line 193, so the update
receives and returns student parameters only). -/

/-- The state mutated by `train_model`. -/
structure TrainState (P O : Type) where
  teacherParams : P
  studentParams : P
  studentGrads : Option P
  optState : O
  globalStep : ℕ
  initialEpoch : ℕ
  teacherEvalMode : Bool
  studentTrainMode : Bool
  deriving DecidableEq

/-- A checkpoint as saved at train.py lines 256-261: exactly the epoch number,
the student model's `state_dict`, the optimizer's `state_dict` and the global
step count. -/
structure Checkpoint (P O : Type) where
  epoch : ℕ
  model_state_dict : P
  optimizer_state_dict : O
  global_step : ℕ
  deriving DecidableEq

/-- Saving a checkpoint (train.py lines 256-261): it records the epoch, the
student parameters, the optimizer state and the global step. -/
def saveCheckpoint {P O : Type} (s : TrainState P O) (epoch : ℕ) : Checkpoint P O :=
  ⟨epoch, s.studentParams, s.optState, s.globalStep⟩

/-- The preload block (train.py lines 197-207).  When `preload` is set (`None`
and the empty string are both falsy in Python and map to `none` here), the
checkpoint read from `latest_weights_file_path(config)` — line 201 loads the
latest file regardless of which filename was computed on line 198 — is applied:
its `model_state_dict` is loaded into the **teacher** model (line 202), the
optimizer state is restored (line 203), `initial_epoch` becomes the saved epoch
plus one (line 204) and `global_step` is restored (line 205).  Otherwise the
state is unchanged. -/
def applyPreload {P O : Type} (latestCkpt : Checkpoint P O) (preload : Option String)
    (s : TrainState P O) : TrainState P O :=
  match preload with
  | some _ =>
    { s with
      teacherParams := latestCkpt.model_state_dict
      optState := latestCkpt.optimizer_state_dict
      initialEpoch := latestCkpt.epoch + 1
      globalStep := latestCkpt.global_step }
  | none => s

/-- One training step (train.py lines 220-251): the teacher forward runs under
`torch.no_grad()` and only supplies values to the loss, `loss.backward()`
writes the student gradients, `optimizer.step()` updates the student parameters
and optimizer state, `optimizer.zero_grad(set_to_none=True)` clears the
gradients, and the global step is incremented.  The teacher parameters are
never assigned. -/
def trainStep {P O β : Type} (gradFn : P → P → β → P) (adamStep : O → P → P → P × O)
    (s : TrainState P O) (batch : β) : TrainState P O :=
  let g := gradFn s.studentParams s.teacherParams batch
  let pu := adamStep s.optState s.studentParams g
  { s with
    studentParams := pu.1
    optState := pu.2
    studentGrads := none
    globalStep := s.globalStep + 1 }

/-- The state entering an epoch's batch loop (train.py lines 216-217):
`student_model.train()` and `teacher_model.eval()`. -/
def epochStart {P O : Type} (s : TrainState P O) : TrainState P O :=
  { s with studentTrainMode := true, teacherEvalMode := true }

/-- One epoch (train.py lines 214-261): set modes, fold the training step over
the batches, then run validation (which puts the student in eval mode,
train.py line 58, and does not modify any parameters). -/
def trainEpoch {P O β : Type} (gradFn : P → P → β → P) (adamStep : O → P → P → P × O)
    (s : TrainState P O) (batches : List β) : TrainState P O :=
  let s2 := batches.foldl (trainStep gradFn adamStep) (epochStart s)
  { s2 with studentTrainMode := false }

/-- The whole epoch loop, running `numEpochsLeft` epochs. -/
def trainLoop {P O β : Type} (gradFn : P → P → β → P) (adamStep : O → P → P → P × O)
    (batches : List β) : ℕ → TrainState P O → TrainState P O
  | 0, s => s
  | numEpochsLeft + 1, s =>
    trainLoop gradFn adamStep batches numEpochsLeft (trainEpoch gradFn adamStep s batches)

/-- A training step leaves the teacher parameters unchanged. -/
lemma trainStep_teacherParams {P O β : Type} (gradFn : P → P → β → P)
    (adamStep : O → P → P → P × O) (s : TrainState P O) (batch : β) :
    (trainStep gradFn adamStep s batch).teacherParams = s.teacherParams := rfl

/-- A training step preserves the teacher's eval-mode flag. -/
lemma trainStep_teacherEvalMode {P O β : Type} (gradFn : P → P → β → P)
    (adamStep : O → P → P → P × O) (s : TrainState P O) (batch : β) :
    (trainStep gradFn adamStep s batch).teacherEvalMode = s.teacherEvalMode := rfl

/-- Folding training steps over any batch list leaves the teacher parameters
unchanged. -/
lemma foldl_trainStep_teacherParams {P O β : Type} (gradFn : P → P → β → P)
    (adamStep : O → P → P → P × O) :
    ∀ (batches : List β) (s : TrainState P O),
      (batches.foldl (trainStep gradFn adamStep) s).teacherParams = s.teacherParams := by
  intro batches
  induction batches with
  | nil => intro s; rfl
  | cons b bs ih =>
    intro s
    rw [List.foldl_cons, ih, trainStep_teacherParams]

/-- Folding training steps preserves the teacher's eval-mode flag. -/
lemma foldl_trainStep_teacherEvalMode {P O β : Type} (gradFn : P → P → β → P)
    (adamStep : O → P → P → P × O) :
    ∀ (batches : List β) (s : TrainState P O),
      (batches.foldl (trainStep gradFn adamStep) s).teacherEvalMode = s.teacherEvalMode := by
  intro batches
  induction batches with
  | nil => intro s; rfl
  | cons b bs ih =>
    intro s
    rw [List.foldl_cons, ih, trainStep_teacherEvalMode]

/-- An epoch leaves the teacher parameters unchanged. -/
lemma trainEpoch_teacherParams {P O β : Type} (gradFn : P → P → β → P)
    (adamStep : O → P → P → P × O) (s : TrainState P O) (batches : List β) :
    (trainEpoch gradFn adamStep s batches).teacherParams = s.teacherParams := by
  unfold trainEpoch
  rw [show ({ batches.foldl (trainStep gradFn adamStep) (epochStart s) with
      studentTrainMode := false } : TrainState P O).teacherParams =
    (batches.foldl (trainStep gradFn adamStep) (epochStart s)).teacherParams from rfl]
  rw [foldl_trainStep_teacherParams]
  rfl

/-- The whole epoch loop leaves the teacher parameters unchanged. -/
lemma trainLoop_teacherParams {P O β : Type} (gradFn : P → P → β → P)
    (adamStep : O → P → P → P × O) (batches : List β) :
    ∀ (numEpochsLeft : ℕ) (s : TrainState P O),
      (trainLoop gradFn adamStep batches numEpochsLeft s).teacherParams = s.teacherParams := by
  intro numEpochsLeft
  induction numEpochsLeft with
  | zero => intro s; rfl
  | succ m ih =>
    intro s
    rw [trainLoop, ih, trainEpoch_teacherParams]

/-! ## Checkpointing and quantization events (train.py lines 214-284)

The observable save/quantize actions of `train_model` are embedded as an event
trace: each epoch of `range(initial_epoch, config['num_epochs'])` processes its
batches, runs validation and saves one checkpoint (lines 255-261); after the
loop, exactly one `torch.quantization.quantize_dynamic` pass over the
`{nn.Linear}` layer set with `dtype=torch.qint8` is applied (lines 270-274) and
the quantized model is saved once (lines 278-279). -/

/-- Observable actions of `train_model`. -/
inductive TrainEvent
  | batchStep
  | ranValidation
  | checkpointSaved (epoch : ℕ)
  | quantizeApplied
  | quantizedSaved
  deriving DecidableEq

/-- The events of one epoch: its batch steps, one validation run, one
checkpoint save tagged with the epoch number (train.py lines 220-261). -/
def epochEvents (epoch nBatches : ℕ) : List TrainEvent :=
  List.replicate nBatches TrainEvent.batchStep ++
    [TrainEvent.ranValidation, TrainEvent.checkpointSaved epoch]

/-- The event trace of `train_model`: the epochs `initial_epoch, ...,
num_epochs - 1` in order, then one dynamic-quantization pass and one save of
the quantized model (train.py lines 214-284). -/
def train_model_events (initialEpoch numEpochs nBatches : ℕ) : List TrainEvent :=
  ((List.range' initialEpoch (numEpochs - initialEpoch)).map
      (fun e => epochEvents e nBatches)).flatten ++
    [TrainEvent.quantizeApplied, TrainEvent.quantizedSaved]

/-- The epoch tag of a checkpoint-save event. -/
def checkpointEpoch : TrainEvent → Option ℕ
  | TrainEvent.checkpointSaved e => some e
  | _ => none

/-- A model as the multiset of its weight-carrying layers, each with the bit
width its weights are stored at (32 for float32 full precision). -/
inductive Layer
  | linear (weightBits : ℕ)
  | embedding (weightBits : ℕ)
  | layerNorm (weightBits : ℕ)
  deriving DecidableEq

/-- `torch.quantization.quantize_dynamic(model, {nn.Linear}, dtype=torch.qint8)`
(train.py lines 270-274): every `nn.Linear` layer's weights are converted to
8-bit integers; layers outside the `{nn.Linear}` set are untouched. -/
def quantize_dynamic (m : List Layer) : List Layer :=
  m.map fun l =>
    match l with
    | Layer.linear _ => Layer.linear 8
    | other => other

/-! ## Tokenizer building and loading (`get_or_build_tokenizer`, train.py 119-129)

The tokenizer file system is an association list from paths to tokenizers;
sentences are lists of whitespace-separated words (the `Whitespace`
pre-tokenizer's output). -/

/-- A word-level tokenizer as configured at train.py lines 122-125. -/
structure WLTokenizer where
  unkToken : String
  specialTokens : List String
  vocab : List String
  deriving DecidableEq

/-- How often a word occurs in the training sentences. -/
def wordCount (sentences : List (List String)) (w : String) : ℕ :=
  (sentences.flatten.filter (fun x => x = w)).length

/-- `WordLevelTrainer(special_tokens=["[UNK]", "[PAD]", "[SOS]", "[EOS]"],
min_frequency=2)` training a `WordLevel(unk_token="[UNK]")` model over the
sentences (train.py lines 122-125): the special tokens enter the vocabulary
first, then the words occurring at least twice. -/
def trainWordLevel (sentences : List (List String)) : WLTokenizer :=
  { unkToken := "[UNK]"
    specialTokens := ["[UNK]", "[PAD]", "[SOS]", "[EOS]"]
    vocab := ["[UNK]", "[PAD]", "[SOS]", "[EOS]"] ++
      (sentences.flatten.dedup.filter (fun w => 2 ≤ wordCount sentences w)) }

/-- The tokenizer files on disk: an association from paths to saved
tokenizers. -/
def TokenizerFS : Type := List (String × WLTokenizer)

/-- Look a path up in the tokenizer file system (`Path.exists` +
`Tokenizer.from_file`). -/
def fsLookup : TokenizerFS → String → Option WLTokenizer
  | [], _ => none
  | (p, t) :: rest, q => if p = q then some t else fsLookup rest q

/-- `tokenizer.save(str(tokenizer_path))` (train.py line 126). -/
def fsSave (fs : TokenizerFS) (path : String) (t : WLTokenizer) : TokenizerFS :=
  (path, t) :: fs

/-- `get_or_build_tokenizer` (train.py lines 119-129): when the tokenizer file
exists it is loaded and returned; otherwise a word-level tokenizer is trained,
saved to the file, and returned. -/
def get_or_build_tokenizer (fs : TokenizerFS) (tokenizer_path : String)
    (sentences : List (List String)) : WLTokenizer × TokenizerFS :=
  match fsLookup fs tokenizer_path with
  | some t => (t, fs)
  | none =>
    let t := trainWordLevel sentences
    (t, fsSave fs tokenizer_path t)

/-! ## Validation batching (train.py lines 56-97 and 158)

`DataLoader(val_ds, batch_size=1, shuffle=True)` splits the dataset into
consecutive chunks of the batch size (the last chunk may be smaller;
`drop_last` defaults to `False`).  `run_validation` increments a counter,
asserts that the batch size is 1, and breaks after `num_examples` batches. -/

/-- The batches a `DataLoader` with the given batch size yields from a
dataset. -/
def makeBatches {α : Type} : ℕ → List α → List (List α)
  | _, [] => []
  | 0, _ :: _ => []
  | batchSize + 1, x :: xs =>
    (x :: xs.take batchSize) :: makeBatches (batchSize + 1) (xs.drop batchSize)
  termination_by _ l => l.length
  decreasing_by simp; omega

/-- The validation loop of `run_validation` (train.py lines 72-97), reduced to
its control flow: count the batch, fail with the assertion message if the
batch size is not 1, and stop after `num_examples` batches. -/
def runValidationLoop {α : Type} : List (List α) → ℕ → ℕ → Except String ℕ
  | [], count, _ => Except.ok count
  | batch :: rest, count, numExamples =>
    if batch.length = 1 then
      if count + 1 = numExamples then Except.ok (count + 1)
      else runValidationLoop rest (count + 1) numExamples
    else Except.error "Batch size must be 1 for validation"

/-! ## Cross entropy with `ignore_index` (train.py line 209)

`nn.CrossEntropyLoss(ignore_index=pad)` averages the per-row terms over the
rows whose label differs from `pad` only; rows labelled `pad` contribute
nothing.  This definition captures the masking semantics that line 209's
`loss_fn` would have had, for comparison with the unmasked cross-entropy that
`knowledge_distillation_loss` actually constructs. -/

/-- Cross-entropy with `ignore_index`: mean of the per-row losses over the rows
not labelled with the ignored index. -/
noncomputable def crossEntropyLossIgnoreIndex {b n : ℕ} (ignoreIdx : Fin n)
    (x : Fin b → Fin n → ℝ) (y : Fin b → Fin n) : ℝ :=
  (∑ i ∈ Finset.univ.filter (fun i => y i ≠ ignoreIdx),
      (Real.log (∑ k, Real.exp (x i k)) - x i (y i))) /
    ((Finset.univ.filter (fun i : Fin b => y i ≠ ignoreIdx)).card : ℝ)

/-- The loss optimized in each training step (train.py lines 239-241): the
distillation loss applied to the flattened student logits, flattened teacher
logits and flattened labels.  The rows of the `Fin b`-indexed tensors are the
`batch*seq_len` rows produced by `.view(-1, vocab_size)`. -/
noncomputable def trainStepLoss {b n : ℕ}
    (student_logits teacher_logits : Fin b → Fin n → ℝ) (label : Fin b → Fin n)
    (temperature alpha : ℝ) : ℝ :=
  knowledge_distillation_loss student_logits teacher_logits label temperature alpha

/-! ## Claim theorems -/

/-- C1: for every student-logits tensor, teacher-logits tensor, label tensor,
temperature and weight alpha, `knowledge_distillation_loss` returns alpha times
the cross-entropy of the student logits against the labels plus `1 - alpha`
times the KL divergence between the log-softmax of `student/T` and the softmax
of `teacher/T`, with the KL term scaled by `T^2`. -/
theorem C1_knowledge_distillation_loss_matches_spec {b n : ℕ}
    (student teacher : Fin b → Fin n → ℝ) (labels : Fin b → Fin n) (T alpha : ℝ) :
    knowledge_distillation_loss student teacher labels T alpha =
      kdLossSpec student teacher labels T alpha := by
  unfold knowledge_distillation_loss kdLossSpec
  rw [crossEntropyLoss_eq_spec]
  simp only [logSoftmax_eq_log_softmax]

/-- C2: every training step leaves the teacher parameters unchanged, the
teacher stays in eval mode throughout the batch loop, the optimizer step
rewrites only the student parameters and optimizer state (plus clearing the
gradients and advancing the global step), and across any number of epochs the
teacher parameters are invariant. -/
theorem C2_teacher_frozen_student_updated {P O β : Type} (gradFn : P → P → β → P)
    (adamStep : O → P → P → P × O) (s : TrainState P O) (batch : β)
    (batches : List β) (numEpochs : ℕ) :
    (trainStep gradFn adamStep s batch).teacherParams = s.teacherParams ∧
    (trainStep gradFn adamStep s batch =
      { s with
        studentParams :=
          (adamStep s.optState s.studentParams
            (gradFn s.studentParams s.teacherParams batch)).1
        optState :=
          (adamStep s.optState s.studentParams
            (gradFn s.studentParams s.teacherParams batch)).2
        studentGrads := none
        globalStep := s.globalStep + 1 }) ∧
    (∀ processed : List β,
      (processed.foldl (trainStep gradFn adamStep) (epochStart s)).teacherEvalMode = true) ∧
    (trainLoop gradFn adamStep batches numEpochs s).teacherParams = s.teacherParams := by
  refine ⟨rfl, rfl, ?_, trainLoop_teacherParams gradFn adamStep batches numEpochs s⟩
  intro processed
  rw [foldl_trainStep_teacherEvalMode]
  rfl

/-- C3: for every (abstracted) model and `max_len ≥ 1`, `greedy_decode` returns
a token sequence that begins with the SOS id, has length at most `max_len`,
whose every generated token is the argmax of the model's projected distribution
on the preceding prefix, and in which a generated EOS token is never followed
by further tokens. -/
theorem C3_greedy_decode_spec (model : List ℕ → List ℚ) (sos eos maxLen : ℕ)
    (hmax : 1 ≤ maxLen) :
    (greedy_decode model sos eos maxLen).head? = some sos ∧
    (greedy_decode model sos eos maxLen).length ≤ maxLen ∧
    (∀ k (hk : k < (greedy_decode model sos eos maxLen).length), 1 ≤ k →
      (greedy_decode model sos eos maxLen).get ⟨k, hk⟩ =
        argmaxIdx (model ((greedy_decode model sos eos maxLen).take k))) ∧
    (∀ k (hk : k < (greedy_decode model sos eos maxLen).length), 1 ≤ k →
      k + 1 < (greedy_decode model sos eos maxLen).length →
      (greedy_decode model sos eos maxLen).get ⟨k, hk⟩ ≠ eos) := by
  obtain ⟨⟨t, ht⟩, hlen, hstep, hlast⟩ :=
    greedyLoop_spec model eos maxLen maxLen [sos] (by simp) (by simpa using hmax)
      (by simp)
  unfold greedy_decode
  refine ⟨?_, hlen, ?_, ?_⟩
  · rw [ht]; rfl
  · intro k hk h1
    exact hstep k hk (by simpa using h1)
  · intro k hk h1 h2
    exact hlast k hk (by simpa using h1) h2

/-- Witness for C3 at a concrete model, `sos = 7`, `eos = 1`, `max_len = 3`. -/
theorem C3_greedy_decode_spec_witness :
    1 ≤ 3 ∧ (greedy_decode (fun _ => [(0 : ℚ), 1, 0]) 7 1 3).head? = some 7 :=
  ⟨by decide, (C3_greedy_decode_spec (fun _ => [(0 : ℚ), 1, 0]) 7 1 3 (by decide)).1⟩

/-- Counterexample to C4 as stated: resuming applies the saved
`model_state_dict` to the **teacher** (train.py line 202), so a student
initialized at `[0]` is *not* restored to the checkpointed weights `[1]`. -/
theorem C4_resume_counterexample :
    (applyPreload (⟨3, [(1 : ℚ)], (2 : ℚ), 7⟩ : Checkpoint (List ℚ) ℚ) (some "latest")
        ⟨[(5 : ℚ)], [(0 : ℚ)], none, 0, 0, 0, false, false⟩).studentParams ≠
      [(1 : ℚ)] := by decide

/-- C4 (amended): checkpoints persist exactly the epoch number, the student
weights, the optimizer state and the global step; on resume the optimizer
state is restored, training continues from the saved epoch plus one with the
saved global step, but the saved weights are loaded into the teacher model
while the student keeps its fresh initialization. -/
theorem C4_checkpoint_persist_and_resume {P O : Type} (s : TrainState P O) (epoch : ℕ)
    (c : Checkpoint P O) (nm : String) (s0 : TrainState P O) :
    saveCheckpoint s epoch = ⟨epoch, s.studentParams, s.optState, s.globalStep⟩ ∧
    (applyPreload c (some nm) s0).optState = c.optimizer_state_dict ∧
    (applyPreload c (some nm) s0).initialEpoch = c.epoch + 1 ∧
    (applyPreload c (some nm) s0).globalStep = c.global_step ∧
    (applyPreload c (some nm) s0).teacherParams = c.model_state_dict ∧
    (applyPreload c (some nm) s0).studentParams = s0.studentParams :=
  ⟨rfl, rfl, rfl, rfl, rfl, rfl⟩

/-- Counterexample to C5 as stated: when `preload` is not configured the
preload block changes nothing (train.py line 207 prints "No model to preload,
starting from scratch"), so the teacher keeps its fresh weights `[0]` rather
than checkpointed weights: no checkpoint is loaded before training. -/
theorem C5_preload_none_counterexample :
    (applyPreload (⟨0, [(9 : ℚ)], (1 : ℚ), 4⟩ : Checkpoint (List ℚ) ℚ) none
        ⟨[(0 : ℚ)], [(0 : ℚ)], none, 0, 0, 0, false, false⟩).teacherParams = [(0 : ℚ)] ∧
    ([(0 : ℚ)] : List ℚ) ≠ [(9 : ℚ)] := by decide

/-- C5 (amended): when a preload checkpoint is configured, the full-size
teacher model (built with the configured `d_model`) receives the latest
checkpoint's weights before any training step, and throughout every batch loop
the teacher keeps those weights and stays in eval mode. -/
theorem C5_teacher_loaded_and_inference_only {P O β : Type} (c : Checkpoint P O)
    (nm : String) (s : TrainState P O) (cfg : Config) (vs vt : ℕ)
    (gradFn : P → P → β → P) (adamStep : O → P → P → P × O) :
    (applyPreload c (some nm) s).teacherParams = c.model_state_dict ∧
    (get_model cfg vs vt).dModel = cfg.dModel ∧
    (∀ processed : List β,
      (processed.foldl (trainStep gradFn adamStep)
          (epochStart (applyPreload c (some nm) s))).teacherParams =
        c.model_state_dict ∧
      (processed.foldl (trainStep gradFn adamStep)
          (epochStart (applyPreload c (some nm) s))).teacherEvalMode = true) := by
  refine ⟨rfl, rfl, fun processed => ⟨?_, ?_⟩⟩
  · rw [foldl_trainStep_teacherParams]; rfl
  · rw [foldl_trainStep_teacherEvalMode]; rfl

/-- Counterexample to C7 as stated: with `d_model = 7` the student is built
with width `7 // 2 = 3`, which is not half of 7. -/
theorem C7_half_width_counterexample :
    2 * (get_model_distillation ⟨7, 350, 30, none⟩ 100 100).dModel ≠ 7 := by decide

/-- C7 (amended): the student transformer is built with model width
`d_model // 2` — exactly half the configured teacher width whenever `d_model`
is even — and its parameters are never loaded from a checkpoint (the preload
block touches only the teacher). -/
theorem C7_student_width_floor_half (cfg : Config) (vs vt : ℕ) {P O : Type}
    (c : Checkpoint P O) (preload : Option String) (s : TrainState P O) :
    (get_model_distillation cfg vs vt).dModel = cfg.dModel / 2 ∧
    (cfg.dModel % 2 = 0 → 2 * (get_model_distillation cfg vs vt).dModel = cfg.dModel) ∧
    (applyPreload c preload s).studentParams = s.studentParams := by
  refine ⟨rfl, fun h => ?_, ?_⟩
  · show 2 * (cfg.dModel / 2) = cfg.dModel
    omega
  · cases preload <;> rfl

/-- Witness for C7 at the standard configuration width 512. -/
theorem C7_student_width_floor_half_witness :
    512 % 2 = 0 ∧ 2 * (get_model_distillation ⟨512, 350, 30, none⟩ 100 100).dModel = 512 :=
  ⟨by decide,
    (C7_student_width_floor_half ⟨512, 350, 30, none⟩ 100 100
        (⟨0, [(0 : ℚ)], (0 : ℚ), 0⟩ : Checkpoint (List ℚ) ℚ) none
        ⟨[(0 : ℚ)], [(0 : ℚ)], none, 0, 0, 0, false, false⟩).2.1 (by decide)⟩

/-- An epoch's event list contains exactly one checkpoint save, tagged with the
epoch number. -/
lemma filterMap_checkpointEpoch_epochEvents (e nb : ℕ) :
    (epochEvents e nb).filterMap checkpointEpoch = [e] := by
  unfold epochEvents
  rw [List.filterMap_append]
  have h1 : (List.replicate nb TrainEvent.batchStep).filterMap checkpointEpoch = [] := by
    induction nb with
    | zero => rfl
    | succ m ih =>
      rw [List.replicate_succ, List.filterMap_cons]
      simp [checkpointEpoch, ih]
  rw [h1]
  rfl

/-- The concatenated epoch events contain the checkpoint saves of the given
epochs, in order. -/
lemma filterMap_checkpointEpoch_flatten (nb : ℕ) :
    ∀ es : List ℕ,
      ((es.map (fun e => epochEvents e nb)).flatten).filterMap checkpointEpoch = es := by
  intro es
  induction es with
  | nil => rfl
  | cons e rest ih =>
    rw [List.map_cons, List.flatten_cons, List.filterMap_append,
      filterMap_checkpointEpoch_epochEvents, ih]
    rfl

/-- No quantization pass happens inside an epoch. -/
lemma quantizeApplied_not_mem_epochEvents (e nb : ℕ) :
    TrainEvent.quantizeApplied ∉ epochEvents e nb := by
  simp [epochEvents, List.mem_replicate]

/-- No quantized-model save happens inside an epoch. -/
lemma quantizedSaved_not_mem_epochEvents (e nb : ℕ) :
    TrainEvent.quantizedSaved ∉ epochEvents e nb := by
  simp [epochEvents, List.mem_replicate]

/-- C6: the event trace of `train_model` saves exactly one checkpoint per
executed epoch (in epoch order), then applies exactly one dynamic-quantization
pass and saves the quantized model exactly once; the quantization pass turns
every Linear layer's weights to 8 bits and leaves every non-Linear layer
unchanged. -/
theorem C6_checkpoints_then_one_quantization (ie ne nb : ℕ) (m : List Layer) :
    (train_model_events ie ne nb).filterMap checkpointEpoch = List.range' ie (ne - ie) ∧
    (train_model_events ie ne nb).count TrainEvent.quantizeApplied = 1 ∧
    (train_model_events ie ne nb).count TrainEvent.quantizedSaved = 1 ∧
    (∀ l ∈ quantize_dynamic m, ∀ bits, l = Layer.linear bits → bits = 8) ∧
    (∀ i (hi : i < m.length) (hi2 : i < (quantize_dynamic m).length),
      (∀ bits, m.get ⟨i, hi⟩ ≠ Layer.linear bits) →
      (quantize_dynamic m).get ⟨i, hi2⟩ = m.get ⟨i, hi⟩) := by
  have hA : TrainEvent.quantizeApplied ∉
      ((List.range' ie (ne - ie)).map (fun e => epochEvents e nb)).flatten := by
    simp only [List.mem_flatten, List.mem_map, not_exists]
    rintro l ⟨⟨e, _, rfl⟩, hmem⟩
    exact quantizeApplied_not_mem_epochEvents e nb hmem
  have hS : TrainEvent.quantizedSaved ∉
      ((List.range' ie (ne - ie)).map (fun e => epochEvents e nb)).flatten := by
    simp only [List.mem_flatten, List.mem_map, not_exists]
    rintro l ⟨⟨e, _, rfl⟩, hmem⟩
    exact quantizedSaved_not_mem_epochEvents e nb hmem
  refine ⟨?_, ?_, ?_, ?_, ?_⟩
  · unfold train_model_events
    rw [List.filterMap_append, filterMap_checkpointEpoch_flatten]
    simp [checkpointEpoch]
  · unfold train_model_events
    rw [List.count_append, List.count_eq_zero.mpr hA]
    rfl
  · unfold train_model_events
    rw [List.count_append, List.count_eq_zero.mpr hS]
    rfl
  · intro l hl bits heq
    unfold quantize_dynamic at hl
    rw [List.mem_map] at hl
    obtain ⟨l0, _, rfl⟩ := hl
    cases l0 with
    | linear b => simpa using heq.symm
    | embedding b => simp at heq
    | layerNorm b => simp at heq
  · intro i hi hi2 hnl
    unfold quantize_dynamic
    rw [List.get_eq_getElem, List.getElem_map, ← List.get_eq_getElem m ⟨i, hi⟩]
    cases hm : m.get ⟨i, hi⟩ with
    | linear b => exact absurd hm (hnl b)
    | embedding b => rfl
    | layerNorm b => rfl

/-- Witness for C6 at two epochs, one batch per epoch, and a two-layer
model. -/
theorem C6_checkpoints_then_one_quantization_witness :
    (train_model_events 0 2 1).filterMap checkpointEpoch = List.range' 0 2 ∧
    (quantize_dynamic [Layer.linear 32, Layer.layerNorm 32]).get ⟨1, by decide⟩ =
      Layer.layerNorm 32 := by
  refine ⟨(C6_checkpoints_then_one_quantization 0 2 1 []).1, ?_⟩
  have h := (C6_checkpoints_then_one_quantization 0 2 1
      [Layer.linear 32, Layer.layerNorm 32]).2.2.2.2 1 (by decide) (by decide)
      (fun bits hb => Layer.noConfusion hb)
  rw [h]
  rfl

/-- C8: when the tokenizer file exists, `get_or_build_tokenizer` loads and
returns it, leaving the file system untouched; otherwise it trains a word-level
tokenizer carrying `[UNK]`, `[PAD]`, `[SOS]`, `[EOS]` (with `[UNK]` as unknown
token), saves it to the file, and returns it. -/
theorem C8_get_or_build_tokenizer_spec (fs : TokenizerFS) (path : String)
    (sentences : List (List String)) :
    (∀ t, fsLookup fs path = some t →
      get_or_build_tokenizer fs path sentences = (t, fs)) ∧
    (fsLookup fs path = none →
      (get_or_build_tokenizer fs path sentences).1 = trainWordLevel sentences ∧
      (get_or_build_tokenizer fs path sentences).1.unkToken = "[UNK]" ∧
      (get_or_build_tokenizer fs path sentences).1.specialTokens =
        ["[UNK]", "[PAD]", "[SOS]", "[EOS]"] ∧
      (get_or_build_tokenizer fs path sentences).2 =
        fsSave fs path (trainWordLevel sentences) ∧
      fsLookup (get_or_build_tokenizer fs path sentences).2 path =
        some (get_or_build_tokenizer fs path sentences).1) := by
  constructor
  · intro t ht
    unfold get_or_build_tokenizer
    rw [ht]
  · intro hn
    unfold get_or_build_tokenizer
    rw [hn]
    refine ⟨rfl, rfl, rfl, rfl, ?_⟩
    show fsLookup (fsSave fs path (trainWordLevel sentences)) path = _
    unfold fsSave fsLookup
    rw [if_pos rfl]

/-- Witness for C8: building and saving into an empty file system. -/
theorem C8_get_or_build_tokenizer_spec_witness :
    fsLookup [] "tokenizer_en.json" = none ∧
    (get_or_build_tokenizer [] "tokenizer_en.json" [["hello"], ["hello"]]).1.unkToken =
      "[UNK]" :=
  ⟨rfl,
    ((C8_get_or_build_tokenizer_spec [] "tokenizer_en.json"
        [["hello"], ["hello"]]).2 rfl).2.1⟩

/-- With batch size 1, every batch the dataloader yields is a singleton. -/
lemma makeBatches_one_cons {α : Type} (x : α) (xs : List α) :
    makeBatches 1 (x :: xs) = [x] :: makeBatches 1 xs := by
  show makeBatches (0 + 1) (x :: xs) = _
  rw [makeBatches]
  simp

/-- Every batch produced with batch size 1 has length exactly 1. -/
lemma makeBatches_one_length {α : Type} :
    ∀ (ds : List α) (batch : List α), batch ∈ makeBatches 1 ds → batch.length = 1 := by
  intro ds
  induction ds with
  | nil =>
    intro batch h
    simp [makeBatches] at h
  | cons x xs ih =>
    intro batch h
    rw [makeBatches_one_cons] at h
    rcases List.mem_cons.mp h with h1 | h2
    · rw [h1]; rfl
    · exact ih batch h2

/-- If every batch has size 1 the validation loop never hits the assertion. -/
lemma runValidationLoop_never_asserts {α : Type} :
    ∀ (bs : List (List α)), (∀ b ∈ bs, b.length = 1) →
      ∀ count numExamples, ∃ m, runValidationLoop bs count numExamples = Except.ok m := by
  intro bs
  induction bs with
  | nil => exact fun _ c _ => ⟨c, rfl⟩
  | cons b rest ih =>
    intro h c n
    have hb : b.length = 1 := h b (List.mem_cons_self b rest)
    rw [runValidationLoop, if_pos hb]
    by_cases hc : c + 1 = n
    · rw [if_pos hc]; exact ⟨c + 1, rfl⟩
    · rw [if_neg hc]
      exact ih (fun b2 hb2 => h b2 (List.mem_cons_of_mem _ hb2)) (c + 1) n

/-- C9: the validation dataloader is built with `batch_size=1`, so every
validation batch has size exactly 1 and the `assert encoder_input.size(0) == 1`
error branch of `run_validation` is unreachable. -/
theorem C9_validation_assert_unreachable {α : Type} (ds : List α) (numExamples : ℕ) :
    (∀ batch ∈ makeBatches 1 ds, batch.length = 1) ∧
    (∀ msg : String,
      runValidationLoop (makeBatches 1 ds) 0 numExamples ≠ Except.error msg) := by
  refine ⟨makeBatches_one_length ds, ?_⟩
  intro msg h
  obtain ⟨m, hm⟩ :=
    runValidationLoop_never_asserts (makeBatches 1 ds) (makeBatches_one_length ds) 0
      numExamples
  rw [hm] at h
  exact Except.noConfusion h

/-- Witness for C9 on a two-element dataset with `num_examples = 2`. -/
theorem C9_validation_assert_unreachable_witness :
    ([10] : List ℕ).length = 1 ∧
    runValidationLoop (makeBatches 1 [(10 : ℕ), 20]) 0 2 ≠
      Except.error "Batch size must be 1 for validation" :=
  ⟨(C9_validation_assert_unreachable [(10 : ℕ), 20] 2).1 [10]
      (by rw [makeBatches_one_cons]; exact List.mem_cons_self _ _),
    (C9_validation_assert_unreachable [(10 : ℕ), 20] 2).2
      "Batch size must be 1 for validation"⟩

/-- A concrete two-row logits tensor: row 0 has logits `(0, 0)`, row 1 has
logits `(0, log 3)`. -/
noncomputable def padLogitsEx : Fin 2 → Fin 2 → ℝ := ![![0, 0], ![0, Real.log 3]]

/-- Labels for `padLogitsEx`: row 0 is labelled with class 1 (an ordinary
token) and row 1 with class 0 (the `[PAD]` id). -/
def padLabelsEx : Fin 2 → Fin 2 := ![1, 0]

/-- The unmasked cross entropy on the example evaluates to
`(log 2 + log 4) / 2`. -/
lemma crossEntropyLoss_padEx :
    crossEntropyLoss padLogitsEx padLabelsEx = (Real.log 2 + Real.log 4) / 2 := by
  unfold crossEntropyLoss padLogitsEx padLabelsEx
  rw [Fin.sum_univ_two]
  rw [show ∑ k, Real.exp (![![(0 : ℝ), 0], ![0, Real.log 3]] 0 k) = 2 by
    rw [Fin.sum_univ_two]
    norm_num]
  rw [show ∑ k, Real.exp (![![(0 : ℝ), 0], ![0, Real.log 3]] 1 k) = 4 by
    rw [Fin.sum_univ_two]
    simp [Real.exp_log]
    norm_num]
  norm_num

/-- The `ignore_index`-masked cross entropy on the example evaluates to
`log 2`: the `[PAD]`-labelled row 1 contributes nothing. -/
lemma crossEntropyLossIgnoreIndex_padEx :
    crossEntropyLossIgnoreIndex (0 : Fin 2) padLogitsEx padLabelsEx = Real.log 2 := by
  unfold crossEntropyLossIgnoreIndex
  rw [show Finset.univ.filter (fun i : Fin 2 => padLabelsEx i ≠ (0 : Fin 2)) = {0} by decide]
  rw [Finset.sum_singleton, Finset.card_singleton]
  unfold padLogitsEx padLabelsEx
  rw [show ∑ k, Real.exp (![![(0 : ℝ), 0], ![0, Real.log 3]] 0 k) = 2 by
    rw [Fin.sum_univ_two]
    norm_num]
  norm_num

/-- C10: the loss optimized in every training step is
`knowledge_distillation_loss`, whose cross-entropy component is the fresh
unmasked `nn.CrossEntropyLoss()`; the `ignore_index` criterion built on
train.py line 209 is never applied, and `[PAD]`-labelled positions do
contribute: on a concrete input with a `[PAD]`-labelled row the unmasked cross
entropy differs from the `ignore_index`-masked one. -/
theorem C10_pad_positions_contribute :
    (∀ (b n : ℕ) (student teacher : Fin b → Fin n → ℝ) (label : Fin b → Fin n)
      (T alpha : ℝ),
      trainStepLoss student teacher label T alpha =
        alpha * crossEntropyLoss student label +
          (1 - alpha) *
            (klDivBatchmean (fun i j => logSoftmax (fun k => student i k / T) j)
                (fun i j => softmax (fun k => teacher i k / T) j) * T ^ 2)) ∧
    crossEntropyLoss padLogitsEx padLabelsEx ≠
      crossEntropyLossIgnoreIndex (0 : Fin 2) padLogitsEx padLabelsEx := by
  constructor
  · intro b n student teacher label T alpha
    rfl
  · rw [crossEntropyLoss_padEx, crossEntropyLossIgnoreIndex_padEx]
    have hlt : Real.log 2 < Real.log 4 := Real.log_lt_log (by norm_num) (by norm_num)
    intro h
    linarith

end DistillTrain
